import Mathlib

/-!
Verification of `git-cliff-core`'s release module (`src/git-cliff-core/src/release.rs`).

The module under verification contains the `Release` data type, the
`calculate_next_version` operation, and the `Releases` JSON serializer.
The commit classifier and version-bump logic live in the external
`next_version`/`semver` crates; those are modelled from the spec
(sections 4.1 and 4.2) where noted.
-/

set_option autoImplicit false

/-- Classification of one commit message, per spec section 4.1:
only the breaking / feature-like / fix-like / no-bump distinction
matters downstream. -/
inductive Classification where
  | breaking
  | feature
  | fix
  | noBump
deriving DecidableEq, Repr

/-- The characters of the breaking-change footer token. -/
def breakingFooter : List Char := "BREAKING CHANGE".data

/-- Does `pat` occur as a contiguous sublist of `l`? -/
def hasSub (pat : List Char) : List Char → Bool
  | [] => pat.isEmpty
  | c :: cs => pat.isPrefixOf (c :: cs) || hasSub pat cs

/-- Split a character list at the first colon: returns the part before
and the part after, or `none` when no colon occurs. -/
def splitFirstColon : List Char → Option (List Char × List Char)
  | [] => none
  | c :: cs =>
    if c = ':' then some ([], cs)
    else
      match splitFirstColon cs with
      | none => none
      | some (a, b) => some (c :: a, b)

/-- Modelled from the spec: the commit classifier of the external
`next_version` crate (spec section 4.1). It recognizes the
conventional-commit header grammar: a type token, an optional scope in
parentheses, an optional bang marking a breaking change, then a colon.
A `BREAKING CHANGE` footer token also marks a breaking change. `feat`
is feature-like, `fix` is fix-like, anything else (or an unparsable
message) is no-bump; classification is total and never fails. -/
def classify (msg : String) : Classification :=
  let l := msg.data
  if hasSub breakingFooter l then Classification.breaking
  else
    match splitFirstColon l with
    | none => Classification.noBump
    | some (hdr, _) =>
      let bang := hdr.getLast? = some '!'
      let ty0 := if hdr.getLast? = some '!' then hdr.dropLast else hdr
      let ty := ty0.takeWhile (fun c => c ≠ '(')
      if bang then Classification.breaking
      else if ty = "feat".data then Classification.feature
      else if ty = "fix".data then Classification.fix
      else Classification.noBump

/-- Modelled from the spec: a semantic version as parsed by the external
`semver` crate, restricted to the `major.minor.patch` core used by the
bump rules of spec section 4.2. -/
structure Version where
  major : Nat
  minor : Nat
  patch : Nat
deriving DecidableEq, Repr

/-- Split a character list on every dot. -/
def splitOnDot : List Char → List (List Char)
  | [] => [[]]
  | c :: cs =>
    if c = '.' then [] :: splitOnDot cs
    else
      match splitOnDot cs with
      | [] => [[c]]
      | g :: gs => (c :: g) :: gs

/-- A numeric identifier of a semantic version: nonempty, all digits,
no leading zero. -/
def isNumeric (l : List Char) : Bool :=
  !l.isEmpty && l.all Char.isDigit && (!(l.head? = some '0') || l = ['0'])

/-- Numeric value of a digit list, most significant digit first. -/
def natOfDigits (l : List Char) : Nat :=
  l.foldl (fun a c => a * 10 + (c.toNat - 48)) 0

/-- Modelled from the spec: the `semver` crate's `Version::parse`,
restricted to the `major.minor.patch` shape (spec sections 4.2 and 6):
three dot-separated numeric identifiers; anything else fails. -/
def Version.parse (s : String) : Option Version :=
  match splitOnDot s.data with
  | [a, b, c] =>
    if isNumeric a && isNumeric b && isNumeric c then
      some ⟨natOfDigits a, natOfDigits b, natOfDigits c⟩
    else none
  | _ => none

/-- Decimal digit characters of a positive number, most significant
first; `fuel` bounds the recursion and `fuel ≥ n` is enough. -/
def natDigitsAux : Nat → Nat → List Char
  | 0, _ => []
  | _ + 1, 0 => []
  | fuel + 1, n + 1 =>
    natDigitsAux fuel ((n + 1) / 10) ++ [Char.ofNat (48 + (n + 1) % 10)]

/-- Decimal rendering of a natural number. -/
def natRepr (n : Nat) : String :=
  if n = 0 then "0" else String.mk (natDigitsAux n n)

/-- Modelled from the spec: the `Display` rendering of a `semver`
version, `major.minor.patch` with no `v` prefix (spec section 6). -/
def Version.toStr (v : Version) : String :=
  natRepr v.major ++ "." ++ natRepr v.minor ++ "." ++ natRepr v.patch

/-- Modelled from the spec: the `NextVersion::next` operation of the
external `next_version` crate (spec section 4.2). Classify every
message and apply the highest-precedence bump, major over minor over
patch over none. -/
def Version.next (v : Version) (msgs : List String) : Version :=
  if Classification.breaking ∈ msgs.map classify then ⟨v.major + 1, 0, 0⟩
  else if Classification.feature ∈ msgs.map classify then ⟨v.major, v.minor + 1, 0⟩
  else if Classification.fix ∈ msgs.map classify then ⟨v.major, v.minor, v.patch + 1⟩
  else v

/-- Modelled from the spec: a `Commit` (from `git-cliff-core`'s commit
module, not part of the sources under verification) holds the raw
commit message text (spec section 3). -/
structure Commit where
  message : String
deriving DecidableEq, Repr

/-- The characters of a string with all trailing whitespace removed;
models Rust's `str::trim_end`. -/
def trimEndChars : List Char → List Char
  | [] => []
  | c :: cs =>
    match trimEndChars cs with
    | [] => if c.isWhitespace then [] else [c]
    | cs' => c :: cs'

/-- Remove trailing whitespace from a string, as `str::trim_end` does. -/
def trimEnd (s : String) : String := String.mk (trimEndChars s.data)

/-- Remove every leading occurrence of character `c`, as Rust's
`str::trim_start_matches` does with a char pattern. -/
def trimStartMatches (c : Char) (s : String) : String :=
  String.mk (s.data.dropWhile (fun x => x = c))

/-- Modelled from the spec: the error kind raised when the previous
release's version string is not a valid semantic version
(`VersionParseError`, spec section 7); the error names the invalid
string. -/
inductive Error where
  | versionParse (s : String)
deriving DecidableEq, Repr

/-- Representation of a release, from `release.rs`: optional version,
commits, optional commit id of the tag, timestamp, and the optional
previous release forming a backward chain. -/
inductive Release where
  | mk (version : Option String) (commits : List Commit)
      (commit_id : Option String) (timestamp : Int)
      (previous : Option Release)

/-- The `version` field of a release. -/
def Release.version : Release → Option String
  | .mk v _ _ _ _ => v

/-- The `commits` field of a release. -/
def Release.commits : Release → List Commit
  | .mk _ c _ _ _ => c

/-- The `commit_id` field of a release. -/
def Release.commit_id : Release → Option String
  | .mk _ _ i _ _ => i

/-- The `timestamp` field of a release. -/
def Release.timestamp : Release → Int
  | .mk _ _ _ t _ => t

/-- The `previous` field of a release. -/
def Release.previous : Release → Option Release
  | .mk _ _ _ _ p => p

/-- `Release::calculate_next_version` from `release.rs`: when the
previous release and its version are present, strip leading `v`
characters, parse the version, and bump it according to the commit
messages with trailing whitespace trimmed; otherwise fall back to the
bootstrap version `0.0.1`. A version parse failure is propagated. -/
def Release.calculate_next_version (r : Release) : Except Error String :=
  match Option.bind r.previous Release.version with
  | some version =>
    match Version.parse (trimStartMatches 'v' version) with
    | some v =>
      Except.ok (Version.toStr
        (Version.next v (r.commits.map (fun c => trimEnd c.message))))
    | none => Except.error (Error.versionParse (trimStartMatches 'v' version))
  | none => Except.ok "0.0.1"

/-- A JSON document value, modelling `serde_json::Value` as far as the
serializer under verification needs. -/
inductive Json where
  | null : Json
  | num : Int → Json
  | str : String → Json
  | arr : List Json → Json
  | obj : List (String × Json) → Json

/-- An optional string serializes as the string or as explicit null. -/
def optStrJson : Option String → Json
  | Option.none => Json.null
  | Option.some s => Json.str s

/-- Modelled from the spec: the serde serialization of a `Commit`
(whose module is not among the sources under verification); it carries
the raw message text (spec sections 3 and 6). -/
def Commit.toJson (c : Commit) : Json :=
  Json.obj [("message", Json.str c.message)]

/-- The derived serde serialization of `Release` from `release.rs`:
`rename_all = "camelCase"` leaves the single-word field names
unchanged, and the explicit `rename = "commit_id"` keeps `commit_id`
verbatim; the `Option` fields serialize absent values as explicit
null, and `previous` recurses. -/
def Release.toJson : Release → Json
  | Release.mk v cs ci t p =>
    Json.obj
      [("version", optStrJson v),
       ("commits", Json.arr (cs.map Commit.toJson)),
       ("commit_id", optStrJson ci),
       ("timestamp", Json.num t),
       ("previous",
         match p with
         | Option.none => Json.null
         | Option.some pr => Release.toJson pr)]

/-- `Releases::as_json` from `release.rs`: `serde_json::to_string`
applied to the inner vector of releases, so the document is the JSON
array of the serialized releases (the wrapper struct itself is not
serialized). Modelled as the JSON document value produced. -/
def Releases.as_json (releases : List Release) : Json :=
  Json.arr (releases.map Release.toJson)

/-- Is this JSON value an object? -/
def Json.isObj : Json → Bool
  | Json.obj _ => true
  | _ => false

/-- Is this JSON value an array? -/
def Json.isArr : Json → Bool
  | Json.arr _ => true
  | _ => false

/-- Look a key up in a list of JSON object members. -/
def lookupPairs (k : String) : List (String × Json) → Option Json
  | [] => none
  | (a, v) :: rest => if a = k then some v else lookupPairs k rest

/-- The value of a key of a JSON object, if any. -/
def Json.lookup (k : String) : Json → Option Json
  | Json.obj l => lookupPairs k l
  | _ => none

/-- A classification occurs among the classifications of the trimmed
commit messages exactly when some commit's trimmed message classifies
that way. -/
lemma classification_mem_iff (cl : Classification) (cs : List Commit) :
    cl ∈ (cs.map fun c => trimEnd c.message).map classify ↔
      ∃ c ∈ cs, classify (trimEnd c.message) = cl := by
  simp [List.map_map, List.mem_map, Function.comp]

/-- Unfolding of `calculate_next_version` on the successful parse path. -/
lemma calculate_next_version_eq_next (r p : Release) (s : String) (v : Version)
    (h1 : r.previous = some p) (h2 : p.version = some s)
    (h3 : Version.parse (trimStartMatches 'v' s) = some v) :
    r.calculate_next_version =
      Except.ok (Version.toStr
        (Version.next v (r.commits.map fun c => trimEnd c.message))) := by
  unfold Release.calculate_next_version
  rw [h1]
  simp only [Option.bind, h2, h3]

/-- C1: for every release whose `previous` field is absent, or whose
`previous.version` is absent, `calculate_next_version` returns
`Ok "0.0.1")`, regardless of the content of its commits. -/
theorem calculate_next_version_bootstrap (r : Release)
    (h : r.previous = none ∨ ∃ p, r.previous = some p ∧ p.version = none) :
    r.calculate_next_version = Except.ok "0.0.1" := by
  unfold Release.calculate_next_version
  rcases h with h | ⟨p, hp, hv⟩
  · rw [h]
    rfl
  · rw [hp]
    simp only [Option.bind, hv]

/-- Witness for C1: a release with a breaking commit but no previous
release still gets the bootstrap version. -/
theorem calculate_next_version_bootstrap_witness :
    (Release.mk none [Commit.mk "feat!: x"] none 0 none).calculate_next_version
      = Except.ok "0.0.1" :=
  calculate_next_version_bootstrap
    (Release.mk none [Commit.mk "feat!: x"] none 0 none) (Or.inl rfl)

/-- C2: for every release whose previous version parses as `v`, if some
commit's trimmed message classifies as breaking, the next version is
`(major v + 1).0.0`. -/
theorem calculate_next_version_breaking_major (r p : Release) (s : String) (v : Version)
    (h1 : r.previous = some p) (h2 : p.version = some s)
    (h3 : Version.parse (trimStartMatches 'v' s) = some v)
    (hb : ∃ c ∈ r.commits, classify (trimEnd c.message) = Classification.breaking) :
    r.calculate_next_version = Except.ok (Version.toStr ⟨v.major + 1, 0, 0⟩) := by
  rw [calculate_next_version_eq_next r p s v h1 h2 h3]
  unfold Version.next
  rw [if_pos ((classification_mem_iff Classification.breaking r.commits).mpr hb)]

/-- Witness for C2: base version `1.0.0` with a breaking commit bumps
to `2.0.0`. -/
theorem calculate_next_version_breaking_major_witness :
    (Release.mk none [Commit.mk "feat!: add xyz", Commit.mk "feat: zzz"] none 0
        (some (Release.mk (some "1.0.0") [] none 0 none))).calculate_next_version
      = Except.ok "2.0.0" :=
  calculate_next_version_breaking_major
    (Release.mk none [Commit.mk "feat!: add xyz", Commit.mk "feat: zzz"] none 0
      (some (Release.mk (some "1.0.0") [] none 0 none)))
    (Release.mk (some "1.0.0") [] none 0 none) "1.0.0" ⟨1, 0, 0⟩
    rfl rfl (by decide) ⟨Commit.mk "feat!: add xyz", by decide, by decide⟩

/-- C3: for every release whose previous version parses as `v`, if some
commit classifies as feature-like and none as breaking, the next
version is `major v.(minor v + 1).0`. -/
theorem calculate_next_version_feature_minor (r p : Release) (s : String) (v : Version)
    (h1 : r.previous = some p) (h2 : p.version = some s)
    (h3 : Version.parse (trimStartMatches 'v' s) = some v)
    (hf : ∃ c ∈ r.commits, classify (trimEnd c.message) = Classification.feature)
    (hnb : ∀ c ∈ r.commits, classify (trimEnd c.message) ≠ Classification.breaking) :
    r.calculate_next_version = Except.ok (Version.toStr ⟨v.major, v.minor + 1, 0⟩) := by
  rw [calculate_next_version_eq_next r p s v h1 h2 h3]
  unfold Version.next
  rw [if_neg, if_pos ((classification_mem_iff Classification.feature r.commits).mpr hf)]
  intro hmem
  obtain ⟨c, hc, hcl⟩ := (classification_mem_iff Classification.breaking r.commits).mp hmem
  exact hnb c hc hcl

/-- Witness for C3: base version `1.0.0` with a feature and a fix
commit bumps to `1.1.0`. -/
theorem calculate_next_version_feature_minor_witness :
    (Release.mk none [Commit.mk "feat: add xyz", Commit.mk "fix: fix xyz"] none 0
        (some (Release.mk (some "1.0.0") [] none 0 none))).calculate_next_version
      = Except.ok "1.1.0" :=
  calculate_next_version_feature_minor
    (Release.mk none [Commit.mk "feat: add xyz", Commit.mk "fix: fix xyz"] none 0
      (some (Release.mk (some "1.0.0") [] none 0 none)))
    (Release.mk (some "1.0.0") [] none 0 none) "1.0.0" ⟨1, 0, 0⟩
    rfl rfl (by decide) ⟨Commit.mk "feat: add xyz", by decide, by decide⟩ (by decide)

/-- Counterexample for C4: a release with no commits at all vacuously
satisfies "every commit that carries a relevant classification is
fix-like", yet the code returns the base version `1.0.0` unchanged
rather than the patch bump `1.0.1` the claim asserts. -/
theorem calculate_next_version_vacuous_fix_counterexample :
    (Release.mk none [] none 0
        (some (Release.mk (some "1.0.0") [] none 0 none))).commits = [] ∧
    (Release.mk none [] none 0
        (some (Release.mk (some "1.0.0") [] none 0 none))).calculate_next_version
      = Except.ok "1.0.0" ∧
    (Except.ok "1.0.0" : Except Error String) ≠ Except.ok "1.0.1" :=
  ⟨rfl, rfl, fun hcontra => absurd (Except.ok.inj hcontra) (by decide)⟩

/-- C4 as amended: for every release whose previous version parses as
`v`, if some commit classifies as fix-like and none as feature-like or
breaking, the next version is `major v.minor v.(patch v + 1)`. -/
theorem calculate_next_version_fix_patch (r p : Release) (s : String) (v : Version)
    (h1 : r.previous = some p) (h2 : p.version = some s)
    (h3 : Version.parse (trimStartMatches 'v' s) = some v)
    (hx : ∃ c ∈ r.commits, classify (trimEnd c.message) = Classification.fix)
    (hnb : ∀ c ∈ r.commits, classify (trimEnd c.message) ≠ Classification.breaking)
    (hnf : ∀ c ∈ r.commits, classify (trimEnd c.message) ≠ Classification.feature) :
    r.calculate_next_version = Except.ok (Version.toStr ⟨v.major, v.minor, v.patch + 1⟩) := by
  rw [calculate_next_version_eq_next r p s v h1 h2 h3]
  unfold Version.next
  rw [if_neg, if_neg, if_pos ((classification_mem_iff Classification.fix r.commits).mpr hx)]
  · intro hmem
    obtain ⟨c, hc, hcl⟩ := (classification_mem_iff Classification.feature r.commits).mp hmem
    exact hnf c hc hcl
  · intro hmem
    obtain ⟨c, hc, hcl⟩ := (classification_mem_iff Classification.breaking r.commits).mp hmem
    exact hnb c hc hcl

/-- Witness for the amended C4: base version `1.0.0` with only fix
commits bumps to `1.0.1`. -/
theorem calculate_next_version_fix_patch_witness :
    (Release.mk none [Commit.mk "fix: add xyz", Commit.mk "fix: aaaaaa"] none 0
        (some (Release.mk (some "1.0.0") [] none 0 none))).calculate_next_version
      = Except.ok "1.0.1" :=
  calculate_next_version_fix_patch
    (Release.mk none [Commit.mk "fix: add xyz", Commit.mk "fix: aaaaaa"] none 0
      (some (Release.mk (some "1.0.0") [] none 0 none)))
    (Release.mk (some "1.0.0") [] none 0 none) "1.0.0" ⟨1, 0, 0⟩
    rfl rfl (by decide) ⟨Commit.mk "fix: add xyz", by decide, by decide⟩
    (by decide) (by decide)

/-- C5: for every release whose previous version parses as `v`, if no
commit classifies as breaking, feature-like or fix-like, the result is
the rendering of `v` unchanged. -/
theorem calculate_next_version_no_bump (r p : Release) (s : String) (v : Version)
    (h1 : r.previous = some p) (h2 : p.version = some s)
    (h3 : Version.parse (trimStartMatches 'v' s) = some v)
    (hn : ∀ c ∈ r.commits, classify (trimEnd c.message) = Classification.noBump) :
    r.calculate_next_version = Except.ok (Version.toStr v) := by
  rw [calculate_next_version_eq_next r p s v h1 h2 h3]
  unfold Version.next
  rw [if_neg, if_neg, if_neg]
  all_goals
    intro hmem
  · obtain ⟨c, hc, hcl⟩ := (classification_mem_iff Classification.fix r.commits).mp hmem
    exact absurd (hn c hc) (by rw [hcl]; decide)
  · obtain ⟨c, hc, hcl⟩ := (classification_mem_iff Classification.feature r.commits).mp hmem
    exact absurd (hn c hc) (by rw [hcl]; decide)
  · obtain ⟨c, hc, hcl⟩ := (classification_mem_iff Classification.breaking r.commits).mp hmem
    exact absurd (hn c hc) (by rw [hcl]; decide)

/-- Witness for C5: base version `1.2.3` with only a docs commit stays
`1.2.3`. -/
theorem calculate_next_version_no_bump_witness :
    (Release.mk none [Commit.mk "docs: update readme"] none 0
        (some (Release.mk (some "1.2.3") [] none 0 none))).calculate_next_version
      = Except.ok "1.2.3" :=
  calculate_next_version_no_bump
    (Release.mk none [Commit.mk "docs: update readme"] none 0
      (some (Release.mk (some "1.2.3") [] none 0 none)))
    (Release.mk (some "1.2.3") [] none 0 none) "1.2.3" ⟨1, 2, 3⟩
    rfl rfl (by decide) (by decide)

/-- C8: for every release whose previous version is present but, after
stripping the leading `v` characters, does not parse as a semantic
version, `calculate_next_version` returns the parse error naming the
invalid string; there is no fallback to the bootstrap version. -/
theorem calculate_next_version_parse_error (r p : Release) (s : String)
    (h1 : r.previous = some p) (h2 : p.version = some s)
    (h3 : Version.parse (trimStartMatches 'v' s) = none) :
    r.calculate_next_version
      = Except.error (Error.versionParse (trimStartMatches 'v' s)) := by
  unfold Release.calculate_next_version
  rw [h1]
  simp only [Option.bind, h2, h3]

/-- Witness for C8: a previous version `abc` produces the parse error. -/
theorem calculate_next_version_parse_error_witness :
    (Release.mk none [Commit.mk "fix: x"] none 0
        (some (Release.mk (some "abc") [] none 0 none))).calculate_next_version
      = Except.error (Error.versionParse (trimStartMatches 'v' "abc")) :=
  calculate_next_version_parse_error
    (Release.mk none [Commit.mk "fix: x"] none 0
      (some (Release.mk (some "abc") [] none 0 none)))
    (Release.mk (some "abc") [] none 0 none) "abc" rfl rfl (by decide)

/-- One-step unfolding of `trimEndChars` on a cons cell. -/
lemma trimEndChars_cons (c : Char) (cs : List Char) :
    trimEndChars (c :: cs) = match trimEndChars cs with
      | [] => if c.isWhitespace then [] else [c]
      | cs2 => c :: cs2 := rfl

/-- Trimming a list of whitespace characters leaves nothing. -/
lemma trimEndChars_all_ws (w : List Char) (h : ∀ ch ∈ w, ch.isWhitespace) :
    trimEndChars w = [] := by
  induction w with
  | nil => rfl
  | cons c cs ih =>
    have hc := h c (List.mem_cons_self c cs)
    have hcs := ih fun ch hch => h ch (List.mem_cons_of_mem c hch)
    rw [trimEndChars_cons, hcs]
    simp [hc]

/-- Appending whitespace does not change the trimmed characters. -/
lemma trimEndChars_append_ws (l w : List Char) (h : ∀ ch ∈ w, ch.isWhitespace) :
    trimEndChars (l ++ w) = trimEndChars l := by
  induction l with
  | nil => simpa using trimEndChars_all_ws w h
  | cons c cs ih =>
    rw [List.cons_append, trimEndChars_cons c (cs ++ w), trimEndChars_cons c cs, ih]

/-- Trimming trailing whitespace is idempotent on character lists. -/
lemma trimEndChars_idem (l : List Char) :
    trimEndChars (trimEndChars l) = trimEndChars l := by
  induction l with
  | nil => rfl
  | cons c cs ih =>
    cases hcs : trimEndChars cs with
    | nil =>
      rw [trimEndChars_cons, hcs]
      by_cases hc : c.isWhitespace = true
      · simp [hc]
        rfl
      · simp only [if_neg hc]
        show trimEndChars [c] = [c]
        rw [trimEndChars_cons]
        simp [hc]
        rfl
    | cons c2 cs2 =>
      have h2 : trimEndChars (c2 :: cs2) = c2 :: cs2 := by
        rw [← hcs, ih, hcs]
      rw [trimEndChars_cons c cs, hcs]
      show trimEndChars (c :: c2 :: cs2) = c :: c2 :: cs2
      rw [trimEndChars_cons, h2]

/-- Appending whitespace to a string does not change its trimmed form. -/
lemma trimEnd_append_ws (m w : String) (h : ∀ ch ∈ w.data, ch.isWhitespace) :
    trimEnd (m ++ w) = trimEnd m := by
  unfold trimEnd
  rw [String.data_append, trimEndChars_append_ws m.data w.data h]

/-- Trimming trailing whitespace of a string is idempotent. -/
lemma trimEnd_idem (m : String) : trimEnd (trimEnd m) = trimEnd m :=
  congrArg String.mk (trimEndChars_idem m.data)

/-- C6: padding every commit message with trailing whitespace does not
change the result of `calculate_next_version`, and neither does
pre-trimming every message: the padded, the original and the trimmed
computations agree. -/
theorem calculate_next_version_trailing_ws (v0 : Option String) (cs : List Commit)
    (ci : Option String) (t : Int) (p : Option Release) (pad : Commit → String)
    (hws : ∀ c, ∀ ch ∈ (pad c).data, ch.isWhitespace) :
    (Release.mk v0 (cs.map fun c => Commit.mk (c.message ++ pad c))
        ci t p).calculate_next_version
      = (Release.mk v0 cs ci t p).calculate_next_version ∧
    (Release.mk v0 (cs.map fun c => Commit.mk (trimEnd c.message))
        ci t p).calculate_next_version
      = (Release.mk v0 cs ci t p).calculate_next_version := by
  have key1 : (cs.map fun c => Commit.mk (c.message ++ pad c)).map
        (fun c => trimEnd c.message) = cs.map fun c => trimEnd c.message := by
    rw [List.map_map]
    exact List.map_congr_left fun c _ =>
      trimEnd_append_ws c.message (pad c) (hws c)
  have key2 : (cs.map fun c => Commit.mk (trimEnd c.message)).map
        (fun c => trimEnd c.message) = cs.map fun c => trimEnd c.message := by
    rw [List.map_map]
    exact List.map_congr_left fun c _ => trimEnd_idem c.message
  constructor <;>
    · unfold Release.calculate_next_version
      simp only [Release.previous, Release.commits, key1, key2]

/-- Witness for C6: the release of the source's fourth test case, whose
messages carry trailing newlines, computes the same next version as the
unpadded one. -/
theorem calculate_next_version_trailing_ws_witness :
    (Release.mk none ([Commit.mk "feat!: add xyz", Commit.mk "feat: zzz"].map
          fun c => Commit.mk (c.message ++ "\n")) none 0
        (some (Release.mk (some "1.0.0") [] none 0 none))).calculate_next_version
      = (Release.mk none [Commit.mk "feat!: add xyz", Commit.mk "feat: zzz"] none 0
          (some (Release.mk (some "1.0.0") [] none 0 none))).calculate_next_version ∧
    (Release.mk none ([Commit.mk "feat!: add xyz", Commit.mk "feat: zzz"].map
          fun c => Commit.mk (trimEnd c.message)) none 0
        (some (Release.mk (some "1.0.0") [] none 0 none))).calculate_next_version
      = (Release.mk none [Commit.mk "feat!: add xyz", Commit.mk "feat: zzz"] none 0
          (some (Release.mk (some "1.0.0") [] none 0 none))).calculate_next_version :=
  calculate_next_version_trailing_ws none
    [Commit.mk "feat!: add xyz", Commit.mk "feat: zzz"] none 0
    (some (Release.mk (some "1.0.0") [] none 0 none))
    (fun _ => "\n")
    (fun _ => (by decide : ∀ ch ∈ ("\n" : String).data, ch.isWhitespace))

/-- The head of a list after dropping a matching run cannot match. -/
lemma head?_dropWhile_ne (p : Char → Bool) (l : List Char) (c : Char)
    (h : (l.dropWhile p).head? = some c) : p c = false := by
  induction l with
  | nil => cases h
  | cons a l ih =>
    rw [List.dropWhile_cons] at h
    by_cases ha : p a = true
    · rw [if_pos ha] at h
      exact ih h
    · rw [if_neg ha] at h
      cases h
      simpa using ha

/-- A string is a run of leading `v` characters followed by its
`v`-stripped remainder. -/
lemma data_eq_replicate_v_append (s : String) :
    ∃ k, s.data = List.replicate k 'v' ++ (trimStartMatches 'v' s).data := by
  refine ⟨(s.data.takeWhile (fun x => x = 'v')).length, ?_⟩
  have h1 : s.data.takeWhile (fun x => x = 'v')
      = List.replicate (s.data.takeWhile (fun x => x = 'v')).length 'v' := by
    rw [List.eq_replicate_iff]
    exact ⟨rfl, fun b hb => by simpa using List.mem_takeWhile_imp hb⟩
  calc s.data
      = s.data.takeWhile (fun x => x = 'v') ++ s.data.dropWhile (fun x => x = 'v') :=
        (List.takeWhile_append_dropWhile _ _).symm
    _ = List.replicate (s.data.takeWhile (fun x => x = 'v')).length 'v'
          ++ (trimStartMatches 'v' s).data := by rw [← h1]; rfl

/-- A successful `calculate_next_version` result is the bootstrap
string or the rendering of some version. -/
lemma calculate_next_version_ok_shape (r : Release) (out : String)
    (h : r.calculate_next_version = Except.ok out) :
    out = "0.0.1" ∨ ∃ v : Version, out = Version.toStr v := by
  unfold Release.calculate_next_version at h
  split at h
  · split at h
    · right
      exact ⟨_, (Except.ok.inj h).symm⟩
    · exact Except.noConfusion h
  · left
    exact (Except.ok.inj h).symm

/-- A character built from code 48 plus a digit value is a digit. -/
lemma ofNat_digit (k : Nat) (h : k < 10) : (Char.ofNat (48 + k)).isDigit := by
  interval_cases k <;> decide

/-- Every character produced by `natDigitsAux` is a digit. -/
lemma natDigitsAux_digit (fuel : Nat) :
    ∀ n c, c ∈ natDigitsAux fuel n → c.isDigit := by
  induction fuel with
  | zero =>
    intro n c hc
    simp [natDigitsAux] at hc
  | succ fuel ih =>
    intro n c hc
    cases n with
    | zero => simp [natDigitsAux] at hc
    | succ m =>
      simp only [natDigitsAux, List.mem_append, List.mem_singleton] at hc
      rcases hc with hc | hc
      · exact ih _ _ hc
      · subst hc
        exact ofNat_digit ((m + 1) % 10) (Nat.mod_lt _ (by decide))

/-- `natDigitsAux` is nonempty on positive fuel and argument. -/
lemma natDigitsAux_ne_nil (fuel n : Nat) (hf : 0 < fuel) (hn : 0 < n) :
    natDigitsAux fuel n ≠ [] := by
  cases fuel with
  | zero => exact absurd hf (by decide)
  | succ f =>
    cases n with
    | zero => exact absurd hn (by decide)
    | succ m => simp [natDigitsAux]

/-- The decimal rendering of a natural number starts with a digit. -/
lemma natRepr_head_isDigit (n : Nat) :
    ∃ c, (natRepr n).data.head? = some c ∧ c.isDigit := by
  unfold natRepr
  by_cases h : n = 0
  · rw [if_pos h]
    exact ⟨'0', rfl, by decide⟩
  · rw [if_neg h]
    have hne := natDigitsAux_ne_nil n n (Nat.pos_of_ne_zero h) (Nat.pos_of_ne_zero h)
    cases hl : (natDigitsAux n n).head? with
    | none => exact absurd (List.head?_eq_none_iff.mp hl) hne
    | some c =>
      exact ⟨c, rfl,
        natDigitsAux_digit n n c (List.mem_of_mem_head? (Option.mem_def.mpr hl))⟩

/-- The rendering of a version starts with a digit. -/
lemma toStr_head_isDigit (v : Version) :
    ∃ c, (Version.toStr v).data.head? = some c ∧ c.isDigit := by
  obtain ⟨c, hc, hd⟩ := natRepr_head_isDigit v.major
  cases hm : (natRepr v.major).data with
  | nil => rw [hm] at hc; cases hc
  | cons d t =>
    rw [hm] at hc
    simp only [List.head?_cons, Option.some.injEq] at hc
    subst hc
    refine ⟨d, ?_, hd⟩
    unfold Version.toStr
    simp [String.data_append, hm]

/-- A digit character is not the letter `v`. -/
lemma isDigit_ne_v {c : Char} (h : c.isDigit) : c ≠ 'v' := by
  intro he
  subst he
  exact absurd h (by decide)

/-- Counterexample for C7: the code strips every leading `v`, not
exactly one. On the previous version `vv1.2.3`, stripping yields
`1.2.3` (two characters removed) and the computation succeeds, while
under strip-exactly-one semantics the remaining `v1.2.3` does not
parse. -/
theorem trimStartMatches_one_v_counterexample :
    trimStartMatches 'v' "vv1.2.3" = "1.2.3" ∧
    Version.parse "v1.2.3" = none ∧
    (Release.mk none [] none 0
        (some (Release.mk (some "vv1.2.3") [] none 0 none))).calculate_next_version
      = Except.ok "1.2.3" :=
  ⟨rfl, rfl, rfl⟩

/-- C7 as amended: the parse step strips all leading `v` characters
(the stripped string never starts with `v` and only `v` characters are
removed), and any version string returned by `calculate_next_version`
never begins with a leading `v`. -/
theorem trimStartMatches_v_output_no_v (s : String) (r : Release) (out : String)
    (h : r.calculate_next_version = Except.ok out) :
    (trimStartMatches 'v' s).data.head? ≠ some 'v' ∧
    (∃ k, s.data = List.replicate k 'v' ++ (trimStartMatches 'v' s).data) ∧
    out.data.head? ≠ some 'v' := by
  refine ⟨?_, data_eq_replicate_v_append s, ?_⟩
  · intro hc
    have hp := head?_dropWhile_ne (fun x => x = 'v') s.data 'v' hc
    simp at hp
  · rcases calculate_next_version_ok_shape r out h with rfl | ⟨v, rfl⟩
    · intro hc
      exact absurd hc (by decide)
    · obtain ⟨c, hc, hd⟩ := toStr_head_isDigit v
      intro hv
      rw [hc] at hv
      exact isDigit_ne_v hd (Option.some.inj hv)

/-- Witness for the amended C7: `v1.2.3` strips to a string not
starting with `v`, and a bootstrap computation's output `0.0.1` does
not start with `v`. -/
theorem trimStartMatches_v_output_no_v_witness :
    (trimStartMatches 'v' "v1.2.3").data.head? ≠ some 'v' ∧
    (∃ k, ("v1.2.3" : String).data
        = List.replicate k 'v' ++ (trimStartMatches 'v' "v1.2.3").data) ∧
    ("0.0.1" : String).data.head? ≠ some 'v' :=
  trimStartMatches_v_output_no_v "v1.2.3"
    (Release.mk none [] none 0 none) "0.0.1" rfl

/-- Unfolding of the release serializer on an arbitrary release. -/
lemma Release.toJson_mk (v : Option String) (cs : List Commit) (ci : Option String)
    (t : Int) (p : Option Release) :
    Release.toJson (Release.mk v cs ci t p) = Json.obj
      [("version", optStrJson v),
       ("commits", Json.arr (cs.map Commit.toJson)),
       ("commit_id", optStrJson ci),
       ("timestamp", Json.num t),
       ("previous",
         match p with
         | Option.none => Json.null
         | Option.some pr => Release.toJson pr)] := by
  cases p <;> simp [Release.toJson]

/-- Counterexample for C9: `as_json` serializes the inner vector, so
even the empty collection yields the top-level array `[]`, not an
object with a `releases` key. -/
theorem as_json_object_counterexample :
    Releases.as_json [] = Json.arr [] ∧
    Json.isObj (Releases.as_json []) = false :=
  ⟨rfl, rfl⟩

/-- C9 as amended: `as_json` produces a top-level JSON array holding
one serialized release per element, and within each serialized release
the `commit_id` field appears verbatim under the key `commit_id`, not
camel-cased. -/
theorem as_json_array_commit_id (rs : List Release) (v : Option String)
    (cs : List Commit) (ci : Option String) (t : Int) (p : Option Release) :
    Releases.as_json rs = Json.arr (rs.map Release.toJson) ∧
    Json.isArr (Releases.as_json rs) = true ∧
    Json.lookup "commit_id" (Release.toJson (Release.mk v cs ci t p))
      = some (optStrJson ci) ∧
    Json.lookup "commitId" (Release.toJson (Release.mk v cs ci t p)) = none := by
  refine ⟨rfl, rfl, ?_, ?_⟩ <;>
    simp [Release.toJson_mk, Json.lookup, lookupPairs]

/-- C10: serializing a release renders the absent optional fields
`version`, `commit_id` and `previous` as explicit null, keeps the
`timestamp` field always present, and recurses into a present
`previous`; holding for every release, it holds recursively through
the chain. -/
theorem release_to_json_explicit_null (r : Release) :
    (r.version = none → Json.lookup "version" (Release.toJson r) = some Json.null) ∧
    (r.commit_id = none →
      Json.lookup "commit_id" (Release.toJson r) = some Json.null) ∧
    (r.previous = none →
      Json.lookup "previous" (Release.toJson r) = some Json.null) ∧
    Json.lookup "timestamp" (Release.toJson r) = some (Json.num r.timestamp) ∧
    (∀ q, r.previous = some q →
      Json.lookup "previous" (Release.toJson r) = some (Release.toJson q)) := by
  cases r with
  | mk v cs ci t p =>
    refine ⟨?_, ?_, ?_, ?_, ?_⟩
    · intro h
      simp only [Release.version] at h
      subst h
      simp [Release.toJson_mk, Json.lookup, lookupPairs, optStrJson]
    · intro h
      simp only [Release.commit_id] at h
      subst h
      simp [Release.toJson_mk, Json.lookup, lookupPairs, optStrJson]
    · intro h
      simp only [Release.previous] at h
      subst h
      simp [Release.toJson_mk, Json.lookup, lookupPairs]
    · simp [Release.toJson_mk, Json.lookup, lookupPairs, Release.timestamp]
    · intro q hq
      simp only [Release.previous] at hq
      subst hq
      simp [Release.toJson_mk, Json.lookup, lookupPairs]

/-- Witness for C10: on a release with every optional field absent the
three keys hold explicit null and the timestamp is present, and a
present previous release serializes recursively. -/
theorem release_to_json_explicit_null_witness :
    Json.lookup "version"
        (Release.toJson (Release.mk none [] none 0 none)) = some Json.null ∧
    Json.lookup "commit_id"
        (Release.toJson (Release.mk none [] none 0 none)) = some Json.null ∧
    Json.lookup "previous"
        (Release.toJson (Release.mk none [] none 0 none)) = some Json.null ∧
    Json.lookup "timestamp"
        (Release.toJson (Release.mk none [] none 0 none)) = some (Json.num 0) ∧
    Json.lookup "previous"
        (Release.toJson (Release.mk none [] none 0
          (some (Release.mk none [] none 0 none))))
      = some (Release.toJson (Release.mk none [] none 0 none)) :=
  ⟨(release_to_json_explicit_null (Release.mk none [] none 0 none)).1 rfl,
   (release_to_json_explicit_null (Release.mk none [] none 0 none)).2.1 rfl,
   (release_to_json_explicit_null (Release.mk none [] none 0 none)).2.2.1 rfl,
   (release_to_json_explicit_null (Release.mk none [] none 0 none)).2.2.2.1,
   (release_to_json_explicit_null (Release.mk none [] none 0
       (some (Release.mk none [] none 0 none)))).2.2.2.2
     (Release.mk none [] none 0 none) rfl⟩

-- Concrete checks mirroring the unit tests of release.rs.
example : classify "feat: add xyz" = Classification.feature := by decide
example : classify "feat!: add xyz" = Classification.breaking := by decide
example : classify "fix: fix xyz" = Classification.fix := by decide
example : classify "docs: blah" = Classification.noBump := by decide
example : classify "feat(scope)!: x" = Classification.breaking := by decide
example : Version.parse "1.0.0" = some ⟨1, 0, 0⟩ := by decide
example : Version.parse "v1.0.0" = none := by decide
example : Version.toStr ⟨1, 1, 0⟩ = "1.1.0" := by decide
example :
    (Release.mk none [⟨"feat: add xyz"⟩, ⟨"fix: fix xyz"⟩] none 0
      (some (Release.mk (some "1.0.0") [] none 0 none))).calculate_next_version
      = Except.ok "1.1.0" := rfl
example :
    (Release.mk none [⟨"feat!: add xyz\n"⟩, ⟨"feat: zzz\n"⟩] none 0
      (some (Release.mk (some "1.0.0") [] none 0 none))).calculate_next_version
      = Except.ok "2.0.0" := rfl
example :
    (Release.mk none [] none 0
      (some (Release.mk none [] none 0 none))).calculate_next_version
      = Except.ok "0.0.1" := rfl
